import Mathlib

/-!
# Verification of the Rate Comparison Analysis wizard

A shallow embedding, in Lean 4, of the report-aggregation logic of the
`StepDataVisualization` component and of the `wizardStorage` persistence
module of the Rate Comparison Analysis wizard, together with theorems
settling the specification claims about them.

Modelling conventions:
* JavaScript numbers are modelled as exact rationals (`ℚ`); `NaN` is
  modelled as `none` of an `Option` type where it can arise.
* Optional / nullable fields are `Option` values; JavaScript truthiness
  tests on numbers (`x ? … : …`, `x || d`) are modelled by `jsTruthy` /
  `jsOr`, which treat `none` and `some 0` as falsy.
* Dates are `Int` timestamps; the four window start dates (derived in the
  source from `new Date()` by month subtraction) are explicit inputs.
* `Array.prototype.sort` (stable since ES2019) is modelled by the stable
  insertion sort `stableSort` over the boolean relation
  "comparator result ≤ 0".
-/

/-- JavaScript truthiness of an optional number: `undefined`/`null` and `0`
are falsy (`NaN` is modelled as absent). -/
def jsTruthy (v : Option ℚ) : Bool :=
  match v with
  | none => false
  | some q => decide (q ≠ 0)

/-- Models `v || d` for an optional JavaScript number `v`: the default `d`
is used when `v` is absent or `0`. -/
def jsOr (v : Option ℚ) (d : ℚ) : ℚ :=
  match v with
  | none => d
  | some q => if q = 0 then d else q

/-- Models `v || d` for an optional JavaScript string `v`: the default is
used when `v` is absent or the empty string. -/
def jsOrStr (v : Option String) (d : String) : String :=
  match v with
  | none => d
  | some s => if s = "" then d else s

/-- Models `v || null` for an optional JavaScript integer `v` (used for
`metadata?.yearBuilt || null`): `0` collapses to `null`. -/
def jsOrNullInt (v : Option Int) : Option Int :=
  match v with
  | none => none
  | some n => if n = 0 then none else some n

/-- The apostrophe character (code point 39). -/
def apostrophe : Char := Char.ofNat 39

/-- Whitespace characters as matched by the JavaScript regexp `\s`
(restricted to the ASCII range; the claims never involve the further
Unicode space characters `\s` also matches). -/
def jsIsWs (c : Char) : Bool :=
  c = ' ' || c = '\t' || c = '\n' || c = '\r' || c = '\x0b' || c = '\x0c'

/-- Lower-casing of a string, character by character (JavaScript
`toLowerCase`; the size labels in this repository are ASCII). -/
def jsToLower (s : String) : String :=
  String.mk (s.toList.map Char.toLower)

/-- Code-point lexicographic order on character lists; models both
JavaScript `<=` on strings and (for the ASCII feature codes of this
repository) `localeCompare(...) <= 0`. -/
def charListLe : List Char → List Char → Bool
  | [], _ => true
  | _ :: _, [] => false
  | a :: as, b :: bs =>
    if a < b then true
    else if b < a then false
    else charListLe as bs

/-- Lexicographic order on strings (see `charListLe`). -/
def strLe (a b : String) : Bool :=
  charListLe a.toList b.toList

/-- One step of splitting a character list at every occurrence of `sep`
(JavaScript `split(sep)` with a single-character separator): empty pieces
are kept. -/
def jsSplitCharGo (sep : Char) : List Char → List Char → List String
  | [], acc => [String.mk acc.reverse]
  | c :: cs, acc =>
    if c = sep then String.mk acc.reverse :: jsSplitCharGo sep cs []
    else jsSplitCharGo sep cs (c :: acc)

/-- JavaScript `s.split(sep)` for a single-character separator. -/
def jsSplitChar (sep : Char) (s : String) : List String :=
  jsSplitCharGo sep s.toList []

/-! ## Data model (`@/types/rca`) -/

/-- One rate observation (`RateRecord`).  The observation date is an integer
timestamp; both price fields are independently optional. -/
structure RateRecord where
  storeId : Int
  size : String
  driveUp : Bool
  elevator : Bool
  outdoorAccess : Bool
  climateControlled : Bool
  humidityControlled : Bool
  date : Int
  walkInPrice : Option ℚ
  onlinePrice : Option ℚ
deriving DecidableEq, Inhabited, Repr

/-- A facility (`Store`): identifier, display name, distance from subject. -/
structure Store where
  storeId : Int
  storeName : String
  distance : ℚ
deriving DecidableEq, Inhabited, Repr

/-- Optional per-store enrichment (`StoreMetadata`). -/
structure StoreMetadata where
  yearBuilt : Option Int
  squareFootage : Option Int
deriving DecidableEq, Inhabited, Repr

/-- Per-store scores for the eight fixed ranking categories
(`StoreRankings`); each category score may be absent. -/
structure StoreRankings where
  location : Option ℚ
  age : Option ℚ
  accessibility : Option ℚ
  vpd : Option ℚ
  visibilitySignage : Option ℚ
  brand : Option ℚ
  quality : Option ℚ
  size : Option ℚ
deriving DecidableEq, Inhabited, Repr

/-- The three named percentage components (`AdjustmentFactors`). -/
structure AdjustmentFactors where
  captiveMarketPremium : Option ℚ
  lossToLease : Option ℚ
  ccAdj : Option ℚ
deriving DecidableEq, Inhabited, Repr

/-- A user-curated mapping from a derived feature tag to a short code
(`FeatureCode`). -/
structure FeatureCode where
  originalTag : String
  code : String
deriving DecidableEq, Inhabited, Repr

/-! ## `totalAdjustment`, `getFeatureCode`, `getStoreAdjustment`
(StepDataVisualization, lines 459–526) -/

/-- Embeds `totalAdjustment`: sum of the three adjustment-factor components, each
defaulted to `0` by JavaScript truthiness (`|| 0`). -/
def totalAdjustment (f : AdjustmentFactors) : ℚ :=
  jsOr f.captiveMarketPremium 0 + jsOr f.lossToLease 0 + jsOr f.ccAdj 0

/-- The tag-building part of `getFeatureCode` (lines 466–487): two parts,
each picked by a strict priority chain, pushed onto `parts` and joined with
`' / '`. -/
def getFeatureCodeTag (record : RateRecord) : String :=
  let parts : List String := []
  let parts := parts ++
    [if record.driveUp then "Drive-Up"
     else if record.elevator then "Elevator"
     else if record.outdoorAccess then "Outdoor"
     else "Ground Level"]
  let parts := parts ++
    [if record.climateControlled then "Climate Controlled"
     else if record.humidityControlled then "Humidity Controlled"
     else "Non-Climate"]
  String.intercalate (" / ") parts

/-- Embeds `getFeatureCode` (lines 465–498): look the derived tag up in the
user-curated `featureCodes` list; on a miss, synthesize a fallback code from
the drive-up/elevator flags and the climate flag. -/
def getFeatureCode (featureCodes : List FeatureCode) (record : RateRecord) : String :=
  let tag := getFeatureCodeTag record
  match featureCodes.find? (fun f => f.originalTag == tag) with
  | some fc => fc.code
  | none =>
    let isClimate := record.climateControlled
    if record.driveUp then (if isClimate then "DUCC" else "DU")
    else if record.elevator then (if isClimate then "ECC" else "ENCC")
    else (if isClimate then "GLCC" else "GNCC")

/-- The eight fixed ranking categories (`rankingCategories`), as field
projections in the source's order: Location, Age, Accessibility, VPD,
Visibility & Signage, Brand, Quality, Size. -/
def rankingCategories : List (StoreRankings → Option ℚ) :=
  [(·.location), (·.age), (·.accessibility), (·.vpd),
   (·.visibilitySignage), (·.brand), (·.quality), (·.size)]

/-- Embeds `getStoreAdjustment` (lines 501–526).  Here `storeRankings` is the record
map `storeRankings[storeId]`; each category score read is
`subjectRankings[cat] || 5`, i.e. absent-or-zero defaults to 5. -/
def getStoreAdjustment (subjectStore : Option Store)
    (storeRankings : Int → Option StoreRankings)
    (adjustmentFactors : AdjustmentFactors) (storeId : Int) : ℚ :=
  match subjectStore with
  | none => 0
  | some subject =>
    if storeId = subject.storeId then 0
    else
      match storeRankings subject.storeId, storeRankings storeId with
      | some subjectRankings, some compRankings =>
        let adjustment := totalAdjustment adjustmentFactors / 100
        let totalDiff :=
          (rankingCategories.map
            (fun cat => jsOr (cat subjectRankings) 5 - jsOr (cat compRankings) 5)).sum
        adjustment + (totalDiff / (rankingCategories.length : ℚ)) * (0.01 : ℚ)
      | _, _ => totalAdjustment adjustmentFactors / 100

/-! ## Size normalization and parsing (lines 543–545, 589–600) -/

/-- Embeds `normalizeSize`: lower-case, strip all whitespace (`\s`) and
apostrophes. -/
def normalizeSize (size : String) : String :=
  String.mk ((jsToLower size).toList.filter (fun c => ¬ (jsIsWs c ∨ c = apostrophe)))

/-- Accumulate a run of decimal digits left to right:
returns (value, digit count, rest). -/
def takeDigits : List Char → Nat → Nat → Nat × Nat × List Char
  | [], v, n => (v, n, [])
  | c :: cs, v, n =>
    if c.isDigit then takeDigits cs (v * 10 + (c.toNat - '0'.toNat)) (n + 1)
    else (v, n, c :: cs)

/-- Sign and digits after the `e`/`E` of a JavaScript float exponent:
yields (sign is non-negative, magnitude), with (true, 0) when no digit
follows. -/
def takeExponentSigned (r : List Char) : Bool × Nat :=
  let (pos, r1) : Bool × List Char :=
    match r with
    | '+' :: r2 => (true, r2)
    | '-' :: r2 => (false, r2)
    | _ => (true, r)
  let (ev, ne, _) := takeDigits r1 0 0
  if ne = 0 then (true, 0) else (pos, ev)

/-- The exponent part of a JavaScript float literal: consumed only when at
least one digit follows `e`/`E` (and an optional sign); otherwise the value
is unaffected. Returns (exponent sign, exponent magnitude). -/
def takeExponent (l : List Char) : Bool × Nat :=
  match l with
  | 'e' :: r => takeExponentSigned r
  | 'E' :: r => takeExponentSigned r
  | _ => (true, 0)

/-- JavaScript `parseFloat`: skip leading whitespace, optional sign, then
the longest decimal-literal prefix; `none` models `NaN` (no digit found).
The result is the exact rational value (`parseFloat`'s rounding to binary64
and its `Infinity` literal are not modelled; the sizes in this repository
are short decimal strings). -/
def jsParseFloat (s : String) : Option ℚ :=
  let l := s.toList.dropWhile jsIsWs
  let (sign, l1) : ℚ × List Char :=
    match l with
    | '+' :: r => (1, r)
    | '-' :: r => (-1, r)
    | _ => (1, l)
  let (ip, ni, l2) := takeDigits l1 0 0
  let (fp, nf, l3) :=
    match l2 with
    | '.' :: r => takeDigits r 0 0
    | _ => (0, 0, l2)
  if ni = 0 ∧ nf = 0 then none
  else
    let mantissa : ℚ := (ip : ℚ) + (fp : ℚ) / ((10 : ℚ) ^ nf)
    let (epos, emag) := takeExponent l3
    some (if epos then sign * mantissa * (10 : ℚ) ^ emag
          else sign * mantissa / (10 : ℚ) ^ emag)

/-- One step of `String.split(/\s+/)`: `acc` collects the current token
(reversed); `skipping` is true while inside a whitespace run. -/
def jsSplitWsGo : List Char → List Char → Bool → List String
  | [], acc, skipping =>
    if skipping then [""] else [String.mk acc.reverse]
  | c :: cs, acc, skipping =>
    if skipping then
      if jsIsWs c then jsSplitWsGo cs acc true
      else jsSplitWsGo cs [c] false
    else
      if jsIsWs c then String.mk acc.reverse :: jsSplitWsGo cs [] true
      else jsSplitWsGo cs (c :: acc) false

/-- JavaScript `s.split(/\s+/)`: tokens separated by maximal whitespace
runs; a leading (resp. trailing) run contributes a leading (resp. trailing)
empty token, and `"".split(/\s+/)` is `[""]`. -/
def jsSplitWs (s : String) : List String :=
  jsSplitWsGo s.toList [] false

/-- Embeds `parseSize` (lines 589–600): lower-case, replace every `x` by a space,
strip apostrophes, split on whitespace; with two or more tokens the area is
the product of the first two parsed tokens (`none` models `NaN` when either
fails to parse); with a single token, `parseFloat(token) || 0`.  The
source's `try`/`catch` is dead (neither `parseFloat` nor arithmetic
throws). -/
def parseSize (sizeStr : String) : Option ℚ :=
  let cleaned :=
    String.mk ((((jsToLower sizeStr).toList.map
      (fun c => if c = 'x' then ' ' else c)).filter (fun c => c ≠ apostrophe)))
  let parts := jsSplitWs cleaned
  if parts.length ≥ 2 then
    match jsParseFloat (parts.getD 0 ""), jsParseFloat (parts.getD 1 "") with
    | some a, some b => some (a * b)
    | _, _ => none
  else some ((jsParseFloat (parts.getD 0 "")).getD 0)

/-! ## A stable sort, modelling `Array.prototype.sort`

`Array.prototype.sort` is required (since ES2019) to be stable; for a
consistent comparator `c` its result is the unique stable order with
respect to the relation `c(a,b) ≤ 0`, which is what the insertion sort
below produces. -/

/-- Insert `a` before the first element `b` with `le a b` (so `a` lands
after earlier elements that compare equal to it: stability). -/
def stableInsert (le : α → α → Bool) (a : α) : List α → List α
  | [] => [a]
  | b :: l => if le a b then a :: b :: l else b :: stableInsert le a l

/-- Stable insertion sort over a boolean "less or equal" relation. -/
def stableSort (le : α → α → Bool) : List α → List α
  | [] => []
  | a :: l => stableInsert le a (stableSort le l)

/-! ## The aggregation pipeline (`groupedData`, lines 529–692) -/

/-- All inputs the `groupedData` memo reads, as an explicit record.
`storeMetadata`, `storeRankings` and `customNames` are the
`Record<number, …>` maps; the four window start dates (derived in the
source from `new Date()` by `setMonth` subtraction of 12/6/3/1) are
explicit timestamps. -/
structure VizInput where
  subjectStore : Option Store
  selectedStores : List Store
  storeMetadata : Int → Option StoreMetadata
  storeRankings : Int → Option StoreRankings
  adjustmentFactors : AdjustmentFactors
  customNames : Int → Option String
  featureCodes : List FeatureCode
  selectedSizes : List String
  t12Start : Int
  t6Start : Int
  t3Start : Int
  t1Start : Int

/-- Result of `calcAverages`. -/
structure Averages where
  inStore : Option ℚ
  asking : Option ℚ
deriving DecidableEq, Inhabited, Repr

/-- Embeds `calcAverages` (lines 574–587): keep observations dated in the window,
then average the truthy prices of each type; an empty sample yields
`null`. -/
def calcAverages (records : List RateRecord) (startDate : Int) : Averages :=
  let filtered := records.filter (fun r => decide (startDate ≤ r.date))
  let walkIn := (filtered.filter (fun r => jsTruthy r.walkInPrice)).map
    (fun r => r.walkInPrice.getD 0)
  let online := (filtered.filter (fun r => jsTruthy r.onlinePrice)).map
    (fun r => r.onlinePrice.getD 0)
  { inStore := if walkIn.length > 0 then some (walkIn.sum / (walkIn.length : ℚ)) else none
    asking := if online.length > 0 then some (online.sum / (online.length : ℚ)) else none }

/-- One per-store row of a group (the object built at lines 620–641). -/
structure StoreRow where
  storeId : Int
  storeName : String
  distance : ℚ
  yearBuilt : Option Int
  squareFootage : Option Int
  isSubject : Bool
  t12Asking : Option ℚ
  t12AskingAdj : Option ℚ
  t12InStore : Option ℚ
  t6Asking : Option ℚ
  t6AskingAdj : Option ℚ
  t6InStore : Option ℚ
  t3Asking : Option ℚ
  t3AskingAdj : Option ℚ
  t3InStore : Option ℚ
  t1Asking : Option ℚ
  t1AskingAdj : Option ℚ
  t1InStore : Option ℚ
  adjustment : ℚ
  recordCount : Nat
deriving DecidableEq, Inhabited, Repr

/-- The group-average figures (lines 666–679); the adjusted columns are
always `null` at group level. -/
structure GroupAverages where
  t12Asking : Option ℚ
  t12AskingAdj : Option ℚ
  t12InStore : Option ℚ
  t6Asking : Option ℚ
  t6AskingAdj : Option ℚ
  t6InStore : Option ℚ
  t3Asking : Option ℚ
  t3AskingAdj : Option ℚ
  t3InStore : Option ℚ
  t1Asking : Option ℚ
  t1AskingAdj : Option ℚ
  t1InStore : Option ℚ
deriving DecidableEq, Inhabited, Repr

/-- One group of the final report (`GroupedData`). -/
structure GroupedData where
  size : String
  featureCode : String
  stores : List StoreRow
  averages : GroupAverages
  marketShare : ℚ
deriving DecidableEq, Inhabited, Repr

/-- Embeds `mkStoreRow`: the row object built for one store of one group
(lines 609–641). -/
def mkStoreRow (input : VizInput) (storeId : Int) (records : List RateRecord) : StoreRow :=
  let store := input.selectedStores.find? (fun s => s.storeId == storeId)
  let metadata := input.storeMetadata storeId
  let adjustment := getStoreAdjustment input.subjectStore input.storeRankings
    input.adjustmentFactors storeId
  let t12 := calcAverages records input.t12Start
  let t6 := calcAverages records input.t6Start
  let t3 := calcAverages records input.t3Start
  let t1 := calcAverages records input.t1Start
  { storeId := storeId
    storeName := jsOrStr (input.customNames storeId) (jsOrStr (store.map (·.storeName)) "Unknown")
    distance := jsOr (store.map (·.distance)) 0
    yearBuilt := jsOrNullInt (metadata.bind (·.yearBuilt))
    squareFootage := jsOrNullInt (metadata.bind (·.squareFootage))
    isSubject := match input.subjectStore with
      | some s => s.storeId == storeId
      | none => false
    t12Asking := t12.asking
    t12AskingAdj := if jsTruthy t12.asking then some (t12.asking.getD 0 * (1 + adjustment)) else none
    t12InStore := t12.inStore
    t6Asking := t6.asking
    t6AskingAdj := if jsTruthy t6.asking then some (t6.asking.getD 0 * (1 + adjustment)) else none
    t6InStore := t6.inStore
    t3Asking := t3.asking
    t3AskingAdj := if jsTruthy t3.asking then some (t3.asking.getD 0 * (1 + adjustment)) else none
    t3InStore := t3.inStore
    t1Asking := t1.asking
    t1AskingAdj := if jsTruthy t1.asking then some (t1.asking.getD 0 * (1 + adjustment)) else none
    t1InStore := t1.inStore
    adjustment := adjustment
    recordCount := records.length }

/-- The row comparator of lines 645–649 as a "comparator ≤ 0" relation:
the subject row compares below everything, other rows by distance. -/
def rowLe (a b : StoreRow) : Bool :=
  if a.isSubject then true
  else if b.isSubject then false
  else decide (a.distance ≤ b.distance)

/-- The group comparator of lines 685–689 as a "comparator ≤ 0" relation:
by parsed size area, then by feature code.  When either area is `NaN`
(`none`) the JavaScript comparator returns `NaN`, which V8's sort treats
as "do not reorder"; this is modelled as a tie. -/
def groupLe (a b : GroupedData) : Bool :=
  match parseSize a.size, parseSize b.size with
  | some x, some y => if x = y then strLe a.featureCode b.featureCode else decide (x ≤ y)
  | _, _ => true

/-- Enumeration order of `Object.entries` over an object keyed by the
stringified store ids: ascending numeric order (integer-like keys are
array indices).  Modelled as a stable sort of the insertion-ordered
association list by key. -/
def entriesSorted (sg : List (Int × List RateRecord)) : List (Int × List RateRecord) :=
  stableSort (fun a b => decide (a.1 ≤ b.1)) sg

/-- Embeds `groups[groupKey][record.storeId].push(record)`: append `r` to the
store bucket `sid`, keeping insertion order of buckets. -/
def pushStoreRecord : List (Int × List RateRecord) → Int → RateRecord →
    List (Int × List RateRecord)
  | [], sid, r => [(sid, [r])]
  | (k, rs) :: rest, sid, r =>
    if k = sid then (k, rs ++ [r]) :: rest
    else (k, rs) :: pushStoreRecord rest sid r

/-- Embeds `groups[groupKey]…push(record)`: append `r` under `(key, sid)`,
keeping insertion order of group keys. -/
def pushGroupRecord : List (String × List (Int × List RateRecord)) → String → Int →
    RateRecord → List (String × List (Int × List RateRecord))
  | [], key, sid, r => [(key, [(sid, [r])])]
  | (k, sg) :: rest, key, sid, r =>
    if k = key then (k, pushStoreRecord sg sid r) :: rest
    else (k, sg) :: pushGroupRecord rest key sid r

/-- The body of the grouping loop of lines 553–571: skip a record whose
normalized size is not selected, otherwise file it under
`` `${size}|${featureCode}` `` and its store id. -/
def groupStep (input : VizInput) (allowedSizes : List String)
    (gs : List (String × List (Int × List RateRecord))) (r : RateRecord) :
    List (String × List (Int × List RateRecord)) :=
  let size := r.size
  if allowedSizes.contains (normalizeSize size) then
    pushGroupRecord gs (size ++ "|" ++ getFeatureCode input.featureCodes r) r.storeId r
  else gs

/-- The grouping loop of lines 553–571, a fold of `groupStep` over the
input records starting from the empty object. -/
def buildGroups (input : VizInput) (allowedSizes : List String)
    (records : List RateRecord) : List (String × List (Int × List RateRecord)) :=
  records.foldl (groupStep input allowedSizes) []

/-- The group object pushed at lines 662–681 for one `(groupKey,
storeRecords)` entry. -/
def mkGroup (input : VizInput) (totalRecords : ℚ) (groupKey : String)
    (storeRecords : List (Int × List RateRecord)) : GroupedData :=
  let parts := jsSplitChar '|' groupKey
  let size := parts.getD 0 ""
  let featureCode := parts.getD 1 ""
  let entries := entriesSorted storeRecords
  let storeData := stableSort rowLe (entries.map (fun e => mkStoreRow input e.1 e.2))
  let allGroupRecords := (entries.map (fun e => e.2)).flatten
  let t12Avg := calcAverages allGroupRecords input.t12Start
  let t6Avg := calcAverages allGroupRecords input.t6Start
  let t3Avg := calcAverages allGroupRecords input.t3Start
  let t1Avg := calcAverages allGroupRecords input.t1Start
  let groupRecordCount := allGroupRecords.length
  { size := size
    featureCode := featureCode
    stores := storeData
    averages :=
      { t12Asking := t12Avg.asking
        t12AskingAdj := none
        t12InStore := t12Avg.inStore
        t6Asking := t6Avg.asking
        t6AskingAdj := none
        t6InStore := t6Avg.inStore
        t3Asking := t3Avg.asking
        t3AskingAdj := none
        t3InStore := t3Avg.inStore
        t1Asking := t1Avg.asking
        t1AskingAdj := none
        t1InStore := t1Avg.inStore }
    marketShare := ((groupRecordCount : ℚ) / totalRecords) * 100 }

/-- Embeds `groupedData` (lines 529–692): the full aggregation.  Empty input
short-circuits to the empty report; otherwise records are filtered by the
selected sizes, grouped by `(size, feature code)` and store, turned into
group objects, and the groups sorted by parsed size then feature code. -/
def groupedData (input : VizInput) (rateRecords : List RateRecord) : List GroupedData :=
  if rateRecords.length = 0 then []
  else
    let allowedSizes := input.selectedSizes.map normalizeSize
    let groups := buildGroups input allowedSizes rateRecords
    let totalRecords : ℚ := (rateRecords.length : ℚ)
    stableSort groupLe (groups.map (fun g => mkGroup input totalRecords g.1 g.2))

/-! ## Helper lemmas about `calcAverages` -/

/-- The per-window sample list of one price type: observations in the
window whose price of that type is truthy, mapped to the price value. -/
def priceList (price : RateRecord → Option ℚ) (records : List RateRecord)
    (startDate : Int) : List ℚ :=
  ((records.filter (fun r => decide (startDate ≤ r.date))).filter
    (fun r => jsTruthy (price r))).map (fun r => (price r).getD 0)

/-- Replace a present-but-zero price field by an absent one, leaving
everything else unchanged. -/
def clearZeroPrices (r : RateRecord) : RateRecord :=
  { r with
    walkInPrice := if r.walkInPrice = some 0 then none else r.walkInPrice
    onlinePrice := if r.onlinePrice = some 0 then none else r.onlinePrice }

/-- Concrete observation fixture: store `sid`, size `sz`, the five feature
flags, date `d`, walk-in and online prices. -/
def obs (sid : Int) (sz : String) (du el od cc hc : Bool) (d : Int)
    (walkIn onl : Option ℚ) : RateRecord :=
  { storeId := sid, size := sz, driveUp := du, elevator := el, outdoorAccess := od,
    climateControlled := cc, humidityControlled := hc, date := d,
    walkInPrice := walkIn, onlinePrice := onl }

/-- The subject store of the C2 counterexample. -/
def cSubjStore : Store := ⟨1, "Subject", 0⟩

/-- Subject rankings for the C2 counterexample: Location present with
score 0, all other categories absent. -/
def cSubjRank : StoreRankings := ⟨some 0, none, none, none, none, none, none, none⟩

/-- Comparison rankings for the C2 counterexample: all categories
absent. -/
def cCompRank : StoreRankings := ⟨none, none, none, none, none, none, none, none⟩

/-- The rankings map of the C2 counterexample. -/
def cRankMap : Int → Option StoreRankings := fun sid =>
  if sid = 1 then some cSubjRank else if sid = 2 then some cCompRank else none

/-- All-absent adjustment factors (base adjustment 0). -/
def cFactors0 : AdjustmentFactors := ⟨none, none, none⟩

/-! ## Wizard-state persistence (`wizardStorage`, lines 3–63)

`localStorage` is modelled as an `Option String` cell; `JSON.parse` as an
abstract `parse : String → Option (StoredState σ)` where `none` models a
thrown parse error; `Date.now()` as an explicit `now : Int` (milliseconds);
the wizard-state type `RCAWizardState` as a type parameter `σ`. -/

/-- The stored snapshot shape (`StoredState`). -/
structure StoredState (σ : Type) where
  version : String
  timestamp : Int
  state : σ

/-- Embeds `STORAGE_VERSION`. -/
def STORAGE_VERSION : String := "1.0"

/-- Embeds `sevenDaysInMs = 7 * 24 * 60 * 60 * 1000`. -/
def sevenDaysInMs : Int := 7 * 24 * 60 * 60 * 1000

/-- Embeds `clearWizardState`: remove the stored snapshot. -/
def clearWizardState (_store : Option String) : Option String := none

/-- Embeds `loadWizardState`: returns the loaded state (or `null`) together with
the storage cell afterwards.  A missing snapshot or a parse error returns
`null` leaving storage untouched; a version mismatch or an expired
timestamp clears storage and returns `null`; otherwise the stored state is
returned unchanged. -/
def loadWizardState {σ : Type} (parse : String → Option (StoredState σ)) (now : Int)
    (store : Option String) : Option σ × Option String :=
  match store with
  | none => (none, store)
  | some stored =>
    match parse stored with
    | none => (none, store)
    | some parsed =>
      if parsed.version ≠ STORAGE_VERSION then (none, clearWizardState store)
      else if now - parsed.timestamp > sevenDaysInMs then (none, clearWizardState store)
      else (some parsed.state, store)

/-- The storage key string of the C10 witness. -/
def cSnap : String := "snap"

/-- A concrete parse function for the C10 witness: the string "snap"
parses to a version-1.0 snapshot captured at time 0 with state `42`;
anything else fails to parse. -/
def cParse : String → Option (StoredState Nat) := fun s =>
  if s = cSnap then some ⟨"1.0", 0, 42⟩ else none

/-- Input fixture: no subject store, no metadata, no rankings, zero
adjustment factors, only size "5x5" selected, all windows starting at 0. -/
def cInC1 : VizInput :=
  { subjectStore := none, selectedStores := [], storeMetadata := fun _ => none,
    storeRankings := fun _ => none, adjustmentFactors := ⟨none, none, none⟩,
    customNames := fun _ => none, featureCodes := [], selectedSizes := ["5x5"],
    t12Start := 0, t6Start := 0, t3Start := 0, t1Start := 0 }

/-- Two in-window observations of store 1 whose online prices `5` and `-5`
average to exactly `0`. -/
def cRecsC1 : List RateRecord :=
  [obs 1 "5x5" false false false false false 1 none (some 5),
   obs 1 "5x5" false false false false false 2 none (some (-5))]

/-- The subject store of the C1 witness fixture. -/
def cSubjW : Store := ⟨2, "Subj", 0⟩

/-- Input fixture for the C1 witness: subject store 2 and a 5% base
adjustment, so store 1 gets adjustment `5 / 100`. -/
def cInC1w : VizInput :=
  { cInC1 with
    subjectStore := some cSubjW
    adjustmentFactors := ⟨some 5, none, none⟩ }

/-- A single in-window observation of store 1 with asking price 10. -/
def cRecsC1w : List RateRecord :=
  [obs 1 "5x5" false false false false false 1 none (some 10)]

/-- The store list of the C8 witness: subject store 5 at distance 0,
competitors 2 and 3 at distances 7 and 4. -/
def cStores8 : List Store := [⟨5, "S", 0⟩, ⟨2, "A", 7⟩, ⟨3, "B", 4⟩]

/-- Input fixture for the C8 witness. -/
def cIn8 : VizInput :=
  { cInC1 with
    subjectStore := some ⟨5, "S", 0⟩
    selectedStores := cStores8 }

/-- One observation per store, all in the same (size, feature) group. -/
def cRecs8 : List RateRecord :=
  [obs 2 "5x5" false false false false false 1 none (some 20),
   obs 3 "5x5" false false false false false 1 none (some 30),
   obs 5 "5x5" false false false false false 1 none (some 40)]

/-- Groups whose size label parses to an actual number (the comparator
returns `NaN`, not a number, on the others). -/
def sizeParses (g : GroupedData) : Prop := (parseSize g.size).isSome = true

/-- Input fixture for the C3 witness: sizes "5x5" and "10x10" selected. -/
def cIn3 : VizInput := { cInC1 with selectedSizes := ["5x5", "10x10"] }

/-- Observations producing groups "5x5|ENCC", "10x10|DU" and "5x5|DU", in
that insertion order. -/
def cRecs3 : List RateRecord :=
  [obs 1 "5x5" false true false false false 1 none (some 10),
   obs 1 "10x10" true false false false false 1 none (some 10),
   obs 1 "5x5" true false false false false 1 none (some 10)]

/-! ## Market share (C6) -/

/-- Number of observations filed in one group (summed over its store
buckets). -/
def groupSize (sg : List (Int × List RateRecord)) : Nat :=
  (sg.map (fun e => e.2.length)).sum

/-- Number of observations filed in the whole grouping object. -/
def totalSize (gs : List (String × List (Int × List RateRecord))) : Nat :=
  (gs.map (fun g => groupSize g.2)).sum

/-- Input fixture for the C6 witness: only size "5x5" selected. -/
def cIn6 : VizInput := cInC1

/-- Three observations, one of which (size "9x9") is excluded by the
selected-size filter. -/
def cRecs6 : List RateRecord :=
  [obs 1 "5x5" false false false false false 1 none (some 10),
   obs 2 "5x5" false false false false false 1 none (some 20),
   obs 3 "9x9" false false false false false 1 none (some 30)]

/-! ## Theorems -/

theorem stableInsert_perm (le : α → α → Bool) (a : α) (l : List α) :
    (stableInsert le a l).Perm (a :: l) := by
  induction l with
  | nil => simp [stableInsert]
  | cons b t ih =>
    simp only [stableInsert]
    split
    · exact List.Perm.refl _
    · exact (ih.cons b).trans (List.Perm.swap a b t)

theorem stableSort_perm (le : α → α → Bool) (l : List α) :
    (stableSort le l).Perm l := by
  induction l with
  | nil => exact List.Perm.refl _
  | cons a t ih => exact (stableInsert_perm le a _).trans (ih.cons a)

theorem mem_stableSort (le : α → α → Bool) (l : List α) (a : α) :
    a ∈ stableSort le l ↔ a ∈ l :=
  (stableSort_perm le l).mem_iff

theorem pairwise_stableInsert (le : α → α → Bool) (P : α → Prop) (a : α) (l : List α)
    (hPa : P a) (hPl : ∀ x ∈ l, P x)
    (htrans : ∀ x y z, P x → P y → P z → le x y = true → le y z = true → le x z = true)
    (htotal : ∀ x y, P x → P y → le x y = false → le y x = true)
    (hl : l.Pairwise (fun x y => le x y = true)) :
    (stableInsert le a l).Pairwise (fun x y => le x y = true) := by
  induction l with
  | nil => simp [stableInsert]
  | cons b t ih =>
    rcases List.pairwise_cons.mp hl with ⟨hb, ht⟩
    simp only [stableInsert]
    by_cases h : le a b = true
    · rw [if_pos h]
      refine List.pairwise_cons.mpr ⟨?_, hl⟩
      intro x hx
      rcases List.mem_cons.mp hx with rfl | hxt
      · exact h
      · exact htrans a b x hPa (hPl b (List.mem_cons_self b t)) (hPl x (List.mem_cons_of_mem b hxt))
          h (hb x hxt)
    · rw [if_neg h]
      refine List.pairwise_cons.mpr
        ⟨?_, ih (fun x hx => hPl x (List.mem_cons_of_mem b hx)) ht⟩
      intro x hx
      rcases List.mem_cons.mp ((stableInsert_perm le a t).mem_iff.mp hx) with rfl | hxt
      · exact htotal x b hPa (hPl b (List.mem_cons_self b t)) (Bool.not_eq_true _ ▸ h)
      · exact hb x hxt

theorem pairwise_stableSort (le : α → α → Bool) (P : α → Prop) (l : List α)
    (hPl : ∀ x ∈ l, P x)
    (htrans : ∀ x y z, P x → P y → P z → le x y = true → le y z = true → le x z = true)
    (htotal : ∀ x y, P x → P y → le x y = false → le y x = true) :
    (stableSort le l).Pairwise (fun x y => le x y = true) := by
  induction l with
  | nil => simp [stableSort]
  | cons a t ih =>
    exact pairwise_stableInsert le P a (stableSort le t)
      (hPl a (List.mem_cons_self a t))
      (fun x hx => hPl x (List.mem_cons_of_mem a ((stableSort_perm le t).mem_iff.mp hx)))
      htrans htotal (ih (fun x hx => hPl x (List.mem_cons_of_mem a hx)))

theorem calcAverages_eq (records : List RateRecord) (startDate : Int) :
    calcAverages records startDate =
      { inStore :=
          if (priceList (·.walkInPrice) records startDate).length > 0
          then some ((priceList (·.walkInPrice) records startDate).sum /
            ((priceList (·.walkInPrice) records startDate).length : ℚ))
          else none
        asking :=
          if (priceList (·.onlinePrice) records startDate).length > 0
          then some ((priceList (·.onlinePrice) records startDate).sum /
            ((priceList (·.onlinePrice) records startDate).length : ℚ))
          else none } := rfl

theorem priceList_nil (price : RateRecord → Option ℚ) (records : List RateRecord)
    (startDate : Int)
    (h : ∀ r ∈ records, startDate ≤ r.date → price r = none ∨ price r = some 0) :
    priceList price records startDate = [] := by
  unfold priceList
  have hnil : (records.filter (fun r => decide (startDate ≤ r.date))).filter
      (fun r => jsTruthy (price r)) = [] := by
    rw [List.filter_eq_nil_iff]
    intro r hr
    have hmem := List.mem_filter.mp hr
    have hd : startDate ≤ r.date := by simpa using hmem.2
    rcases h r hmem.1 hd with h0 | h0 <;> simp [jsTruthy, h0]
  rw [hnil]
  rfl

/-- C7: a window with zero qualifying samples (no in-window observation
with a present price of that type) yields `none` for that price type's
mean — not zero and, the embedding being total, not an exception; stated
separately for asking (online) and in-store prices. -/
theorem calcAverages_empty_window_null (records : List RateRecord) (startDate : Int) :
    ((∀ r ∈ records, startDate ≤ r.date → r.onlinePrice = none) →
      (calcAverages records startDate).asking = none) ∧
    ((∀ r ∈ records, startDate ≤ r.date → r.walkInPrice = none) →
      (calcAverages records startDate).inStore = none) := by
  constructor <;> intro h <;> rw [calcAverages_eq] <;> simp only
  · rw [priceList_nil (·.onlinePrice) records startDate
      (fun r hr hd => Or.inl (h r hr hd))]
    simp
  · rw [priceList_nil (·.walkInPrice) records startDate
      (fun r hr hd => Or.inl (h r hr hd))]
    simp

theorem priceList_map_clearZero (price : RateRecord → Option ℚ)
    (hprice : ∀ r, price (clearZeroPrices r) = if price r = some 0 then none else price r)
    (records : List RateRecord) (startDate : Int) :
    priceList price (records.map clearZeroPrices) startDate =
      priceList price records startDate := by
  have htruthy : ∀ r, jsTruthy (price (clearZeroPrices r)) = jsTruthy (price r) := by
    intro r
    rw [hprice]
    rcases price r with _ | q
    · rfl
    · by_cases hq : q = 0 <;> simp [hq, jsTruthy]
  have hval : ∀ r, (price (clearZeroPrices r)).getD 0 = (price r).getD 0 := by
    intro r
    rw [hprice]
    rcases price r with _ | q
    · rfl
    · by_cases hq : q = 0 <;> simp [hq]
  induction records with
  | nil => rfl
  | cons r t ih =>
    unfold priceList at ih ⊢
    simp only [List.map_cons, List.filter_cons]
    have hdate : (clearZeroPrices r).date = r.date := rfl
    rw [hdate]
    by_cases hd : decide (startDate ≤ r.date) = true
    · rw [if_pos hd, if_pos hd, List.filter_cons, List.filter_cons, htruthy]
      by_cases ht : jsTruthy (price r) = true
      · rw [if_pos ht, if_pos ht, List.map_cons, List.map_cons, hval, ih]
      · rw [if_neg ht, if_neg ht, ih]
    · rw [if_neg hd, if_neg hd, ih]

/-- C9: in window averaging, a present-but-zero price is treated exactly
as an absent one — replacing every `some 0` price by `none` leaves
`calcAverages` unchanged, and a store whose in-window prices of one type
are all absent-or-zero gets `none` for that window, not a mean of `0`. -/
theorem zero_price_is_absent (records : List RateRecord) (startDate : Int) :
    calcAverages (records.map clearZeroPrices) startDate = calcAverages records startDate ∧
    ((∀ r ∈ records, startDate ≤ r.date → r.onlinePrice = none ∨ r.onlinePrice = some 0) →
      (calcAverages records startDate).asking = none) ∧
    ((∀ r ∈ records, startDate ≤ r.date → r.walkInPrice = none ∨ r.walkInPrice = some 0) →
      (calcAverages records startDate).inStore = none) := by
  refine ⟨?_, ?_, ?_⟩
  · rw [calcAverages_eq, calcAverages_eq,
      priceList_map_clearZero (·.walkInPrice) (fun r => rfl) records startDate,
      priceList_map_clearZero (·.onlinePrice) (fun r => rfl) records startDate]
  · intro h
    rw [calcAverages_eq]
    simp only
    rw [priceList_nil (·.onlinePrice) records startDate h]
    simp
  · intro h
    rw [calcAverages_eq]
    simp only
    rw [priceList_nil (·.walkInPrice) records startDate h]
    simp

/-- Witness for C9: a store whose only in-window online price is `0` gets
`none` for the asking mean (while the in-store mean over `{8}` is `8`),
and clearing the zero price changes nothing. -/
theorem zero_price_is_absent_witness :
    calcAverages ([obs 1 "5x5" false false false false false 1 (some 8) (some 0)].map
      clearZeroPrices) 0 =
      calcAverages [obs 1 "5x5" false false false false false 1 (some 8) (some 0)] 0 ∧
    (calcAverages [obs 1 "5x5" false false false false false 1 (some 8) (some 0)] 0).asking =
      none ∧
    (calcAverages [obs 1 "5x5" false false false false false 1 (some 8) (some 0)] 0).inStore =
      some 8 :=
  ⟨(zero_price_is_absent _ 0).1,
   (zero_price_is_absent _ 0).2.1 (by with_unfolding_all decide),
   by with_unfolding_all decide⟩

/-- Witness for C7: with the only online price dated before the window
start, the window's asking mean is `none` (and the in-store mean over the
in-window walk-in price `7` is `7`). -/
theorem calcAverages_empty_window_null_witness :
    (calcAverages [obs 1 "5x5" false false false false false (-3) none (some 10),
      obs 1 "5x5" false false false false false 2 (some 7) none] 0).asking = none ∧
    (calcAverages [obs 1 "5x5" false false false false false (-3) none (some 10),
      obs 1 "5x5" false false false false false 2 (some 7) none] 0).inStore = some 7 :=
  ⟨(calcAverages_empty_window_null _ 0).1 (by with_unfolding_all decide),
   by with_unfolding_all decide⟩

/-- C4: the derived feature tag is a pure function of the five boolean
flags: the access part is picked by the strict priority chain
drive-up > elevator > outdoor > "Ground Level", the climate part by
climate > humidity > "Non-Climate" (only the highest-priority true flag of
each chain contributes, for all 32 flag combinations), and the two parts
are joined with " / ". -/
theorem featureTag_priority_chains (record : RateRecord) :
    getFeatureCodeTag record =
      (if record.driveUp then "Drive-Up"
       else if record.elevator then "Elevator"
       else if record.outdoorAccess then "Outdoor"
       else "Ground Level") ++ " / " ++
      (if record.climateControlled then "Climate Controlled"
       else if record.humidityControlled then "Humidity Controlled"
       else "Non-Climate") := by
  unfold getFeatureCodeTag
  rcases record with ⟨sid, sz, du, el, od, cc, hc, d, w, o⟩
  cases du <;> cases el <;> cases od <;> cases cc <;> cases hc <;> rfl

/-- C5: when the derived tag has no exact match in the feature-code list,
the resulting code depends only on the drive-up/elevator flags and the
climate-controlled flag: drive-up → "DUCC"/"DU", else elevator →
"ECC"/"ENCC", else (outdoor or ground level alike) → "GLCC"/"GNCC". -/
theorem featureCode_fallback (featureCodes : List FeatureCode) (record : RateRecord)
    (h : ∀ f ∈ featureCodes, f.originalTag ≠ getFeatureCodeTag record) :
    getFeatureCode featureCodes record =
      if record.driveUp then (if record.climateControlled then "DUCC" else "DU")
      else if record.elevator then (if record.climateControlled then "ECC" else "ENCC")
      else (if record.climateControlled then "GLCC" else "GNCC") := by
  have hfind : featureCodes.find? (fun f => f.originalTag == getFeatureCodeTag record) = none := by
    rw [List.find?_eq_none]
    intro f hf
    simpa using h f hf
  simp only [getFeatureCode, hfind]

/-- Witness for C5: a drive-up, climate-controlled observation whose tag
"Drive-Up / Climate Controlled" is missing from the (non-empty)
feature-code list resolves to "DUCC". -/
theorem featureCode_fallback_witness :
    getFeatureCode [⟨"Elevator / Non-Climate", "X1"⟩]
      (obs 7 "10x10" true false false true false 0 none (some 100)) = "DUCC" :=
  (featureCode_fallback [⟨"Elevator / Non-Climate", "X1"⟩]
    (obs 7 "10x10" true false false true false 0 none (some 100)) (by decide)).trans
    (by decide)

/-- C2 (amended): the per-store adjustment is 0 for the subject store;
the flat base (sum of the three adjustment-factor components, each
absent-or-zero defaulted to 0, divided by 100) when either rankings record
is entirely absent; otherwise the base plus 0.01 times the average over
the eight categories of (subject score − comparison score), where a
category score that is missing **or stored as 0** is replaced by 5. -/
theorem storeAdjustment_spec (subject : Store) (rk : Int → Option StoreRankings)
    (f : AdjustmentFactors) (sid : Int) :
    getStoreAdjustment (some subject) rk f sid =
      if sid = subject.storeId then 0
      else
        match rk subject.storeId, rk sid with
        | some sr, some cr =>
          (jsOr f.captiveMarketPremium 0 + jsOr f.lossToLease 0 + jsOr f.ccAdj 0) / 100 +
            (((jsOr sr.location 5 - jsOr cr.location 5) + (jsOr sr.age 5 - jsOr cr.age 5) +
              (jsOr sr.accessibility 5 - jsOr cr.accessibility 5) +
              (jsOr sr.vpd 5 - jsOr cr.vpd 5) +
              (jsOr sr.visibilitySignage 5 - jsOr cr.visibilitySignage 5) +
              (jsOr sr.brand 5 - jsOr cr.brand 5) + (jsOr sr.quality 5 - jsOr cr.quality 5) +
              (jsOr sr.size 5 - jsOr cr.size 5)) / 8) * (1 / 100)
        | _, _ =>
          (jsOr f.captiveMarketPremium 0 + jsOr f.lossToLease 0 + jsOr f.ccAdj 0) / 100 := by
  dsimp only [getStoreAdjustment, totalAdjustment, rankingCategories]
  by_cases hs : sid = subject.storeId
  · rw [if_pos hs, if_pos hs]
  · rw [if_neg hs, if_neg hs]
    rcases hr1 : rk subject.storeId with _ | sr <;> rcases hr2 : rk sid with _ | cr <;>
      (dsimp only; try rfl)
    simp only [List.map_cons, List.map_nil, List.sum_cons, List.sum_nil, List.length_cons,
      List.length_nil]
    norm_num
    try ring

/-- Counterexample to C2 as stated: with the subject's Location score
*present and equal to 0* (and everything else defaulted), the code
produces adjustment 0 (it defaults the zero score to 5), while the
claim's formula — defaulting only *missing* scores to 5 — prescribes
0 + 0.01·((0−5)+0+…+0)/8 = −1/160 ≠ 0. -/
theorem storeAdjustment_zero_score_counterexample :
    getStoreAdjustment (some cSubjStore) cRankMap cFactors0 2 = 0 ∧
    totalAdjustment cFactors0 / 100 +
      (((cSubjRank.location.getD 5 - cCompRank.location.getD 5) +
        (cSubjRank.age.getD 5 - cCompRank.age.getD 5) +
        (cSubjRank.accessibility.getD 5 - cCompRank.accessibility.getD 5) +
        (cSubjRank.vpd.getD 5 - cCompRank.vpd.getD 5) +
        (cSubjRank.visibilitySignage.getD 5 - cCompRank.visibilitySignage.getD 5) +
        (cSubjRank.brand.getD 5 - cCompRank.brand.getD 5) +
        (cSubjRank.quality.getD 5 - cCompRank.quality.getD 5) +
        (cSubjRank.size.getD 5 - cCompRank.size.getD 5)) / 8) * (1 / 100) = -(1 / 160) ∧
    (0 : ℚ) ≠ -(1 / 160) := by
  refine ⟨by with_unfolding_all decide, by with_unfolding_all decide,
    by with_unfolding_all decide⟩

/-- C10: `loadWizardState` returns `null` and clears the snapshot when the
stored version differs from "1.0" or the capture timestamp is more than 7
days before the current time; it returns `null` without failing (storage
untouched) when no snapshot exists or the JSON does not parse; otherwise
it returns the stored wizard state unchanged. -/
theorem loadWizardState_spec {σ : Type} (parse : String → Option (StoredState σ))
    (now : Int) (store : Option String) :
    (store = none → loadWizardState parse now store = (none, none)) ∧
    (∀ s, store = some s → parse s = none →
      loadWizardState parse now store = (none, store)) ∧
    (∀ s p, store = some s → parse s = some p → p.version ≠ STORAGE_VERSION →
      loadWizardState parse now store = (none, none)) ∧
    (∀ s p, store = some s → parse s = some p → p.version = STORAGE_VERSION →
      now - p.timestamp > sevenDaysInMs →
      loadWizardState parse now store = (none, none)) ∧
    (∀ s p, store = some s → parse s = some p → p.version = STORAGE_VERSION →
      now - p.timestamp ≤ sevenDaysInMs →
      loadWizardState parse now store = (some p.state, store)) := by
  refine ⟨?_, ?_, ?_, ?_, ?_⟩
  · rintro rfl
    rfl
  · rintro s rfl hp
    simp [loadWizardState, hp]
  · rintro s p rfl hp hv
    simp [loadWizardState, hp, hv, clearWizardState]
  · rintro s p rfl hp hv hexp
    simp [loadWizardState, hp, hv, clearWizardState, hexp, STORAGE_VERSION]
  · rintro s p rfl hp hv hfresh
    simp [loadWizardState, hp, hv, STORAGE_VERSION, not_lt.mpr hfresh]

/-- Witness for C10: the snapshot is returned intact while fresh
(`now = 5`), and cleared with a `null` result once `now` is more than
seven days past its timestamp. -/
theorem loadWizardState_spec_witness :
    loadWizardState cParse 5 (some cSnap) = (some 42, some cSnap) ∧
    loadWizardState cParse 700000000 (some cSnap) = (none, none) ∧
    loadWizardState cParse 5 none = (none, none) :=
  ⟨(loadWizardState_spec cParse 5 (some cSnap)).2.2.2.2 cSnap ⟨"1.0", 0, 42⟩
      rfl rfl rfl (by decide),
   (loadWizardState_spec cParse 700000000 (some cSnap)).2.2.2.1 cSnap ⟨"1.0", 0, 42⟩
      rfl rfl rfl (by decide),
   (loadWizardState_spec cParse 5 none).1 rfl⟩

/-! ## Structure of the report: helper lemmas -/

theorem mkGroup_stores (input : VizInput) (T : ℚ) (key : String)
    (sg : List (Int × List RateRecord)) :
    (mkGroup input T key sg).stores =
      stableSort rowLe ((entriesSorted sg).map (fun e => mkStoreRow input e.1 e.2)) := rfl

theorem mem_groupedData {input : VizInput} {records : List RateRecord} {g : GroupedData}
    (hg : g ∈ groupedData input records) :
    ∃ e ∈ buildGroups input (input.selectedSizes.map normalizeSize) records,
      g = mkGroup input (records.length : ℚ) e.1 e.2 := by
  unfold groupedData at hg
  split at hg
  · simp at hg
  · rw [mem_stableSort] at hg
    rcases List.mem_map.mp hg with ⟨e, he, rfl⟩
    exact ⟨e, he, rfl⟩

theorem mem_stores_structure {input : VizInput} {records : List RateRecord} {g : GroupedData}
    {row : StoreRow} (hg : g ∈ groupedData input records) (hrow : row ∈ g.stores) :
    ∃ sid recs, row = mkStoreRow input sid recs := by
  rcases mem_groupedData hg with ⟨e, _, rfl⟩
  rw [mkGroup_stores, mem_stableSort] at hrow
  rcases List.mem_map.mp hrow with ⟨e2, _, rfl⟩
  exact ⟨e2.1, e2.2, rfl⟩

theorem askingAdj_char (a : Option ℚ) (adj : ℚ) :
    ((if jsTruthy a then some (a.getD 0 * (1 + adj)) else none) = none ↔
      a = none ∨ a = some 0) ∧
    ∀ q : ℚ, a = some q → q ≠ 0 →
      (if jsTruthy a then some (a.getD 0 * (1 + adj)) else none) = some (q * (1 + adj)) := by
  rcases a with _ | q
  · constructor
    · simp [jsTruthy]
    · intro q hq
      exact absurd hq (by simp)
  · by_cases hq : q = 0
    · subst hq
      constructor
      · simp [jsTruthy]
      · intro q' hq' h0
        rw [Option.some_inj] at hq'
        exact absurd hq'.symm h0
    · constructor
      · simp [jsTruthy, hq]
      · intro q' hq' _
        rw [Option.some_inj] at hq'
        subst hq'
        simp [jsTruthy, hq]

/-- C1 (amended): for every store row and every trailing window, the
adjusted asking figure equals the unadjusted asking mean times
`(1 + adjustment)` whenever that mean is a *nonzero* number, and it is
`none` exactly when the unadjusted mean is `none` **or zero** (the source
guards the multiplication with JavaScript truthiness, so a zero mean also
produces `null`). -/
theorem adjustedAsking_spec (input : VizInput) (records : List RateRecord)
    (g : GroupedData) (hg : g ∈ groupedData input records)
    (row : StoreRow) (hrow : row ∈ g.stores) :
    ((row.t12AskingAdj = none ↔ row.t12Asking = none ∨ row.t12Asking = some 0) ∧
      ∀ q : ℚ, row.t12Asking = some q → q ≠ 0 →
        row.t12AskingAdj = some (q * (1 + row.adjustment))) ∧
    ((row.t6AskingAdj = none ↔ row.t6Asking = none ∨ row.t6Asking = some 0) ∧
      ∀ q : ℚ, row.t6Asking = some q → q ≠ 0 →
        row.t6AskingAdj = some (q * (1 + row.adjustment))) ∧
    ((row.t3AskingAdj = none ↔ row.t3Asking = none ∨ row.t3Asking = some 0) ∧
      ∀ q : ℚ, row.t3Asking = some q → q ≠ 0 →
        row.t3AskingAdj = some (q * (1 + row.adjustment))) ∧
    ((row.t1AskingAdj = none ↔ row.t1Asking = none ∨ row.t1Asking = some 0) ∧
      ∀ q : ℚ, row.t1Asking = some q → q ≠ 0 →
        row.t1AskingAdj = some (q * (1 + row.adjustment))) := by
  obtain ⟨sid, recs, rfl⟩ := mem_stores_structure hg hrow
  exact ⟨askingAdj_char _ _, askingAdj_char _ _, askingAdj_char _ _, askingAdj_char _ _⟩

/-- Counterexample to C1 as stated: on `cRecsC1` the single store row has
unadjusted asking mean `some 0` — a number — yet its adjusted asking is
`none`, not `0 × (1 + 0) = 0`; so "adjusted = unadjusted × (1 +
adjustment)" and "`null` exactly when the unadjusted mean is `null`" both
fail when the mean is zero. -/
theorem adjustedAsking_counterexample :
    (groupedData cInC1 cRecsC1).map
      (fun g => g.stores.map (fun r => (r.t12Asking, r.t12AskingAdj, r.adjustment))) =
      [[(some 0, none, 0)]] ∧
    (none : Option ℚ) ≠ some (0 * (1 + 0)) := by
  constructor
  · with_unfolding_all decide
  · simp

/-- Witness for C1: on `cRecsC1w` the single row's asking mean is 10 and
its adjusted asking is `10 × (1 + adjustment)` (with adjustment
`5 / 100`). -/
theorem adjustedAsking_spec_witness :
    (groupedData cInC1w cRecsC1w).head!.stores.head!.t12AskingAdj =
      some (10 * (1 + (groupedData cInC1w cRecsC1w).head!.stores.head!.adjustment)) :=
  (adjustedAsking_spec cInC1w cRecsC1w
    (groupedData cInC1w cRecsC1w).head!
    (by with_unfolding_all decide)
    (groupedData cInC1w cRecsC1w).head!.stores.head!
    (by with_unfolding_all decide)).1.2 10
    (by with_unfolding_all decide) (by norm_num)

theorem rowLe_trans (x y z : StoreRow) (hxy : rowLe x y = true) (hyz : rowLe y z = true) :
    rowLe x z = true := by
  unfold rowLe at hxy hyz ⊢
  by_cases hx : x.isSubject = true
  · simp [hx]
  · by_cases hy : y.isSubject = true
    · simp [hx, hy] at hxy
    · by_cases hz : z.isSubject = true
      · simp [hy, hz] at hyz
      · simp only [hx, hy, hz, if_false] at hxy hyz ⊢
        exact decide_eq_true (le_trans (of_decide_eq_true hxy) (of_decide_eq_true hyz))

theorem rowLe_total (x y : StoreRow) (h : rowLe x y = false) : rowLe y x = true := by
  unfold rowLe at h ⊢
  by_cases hx : x.isSubject = true
  · simp [hx] at h
  · by_cases hy : y.isSubject = true
    · simp [hy]
    · simp only [hx, hy, if_false] at h ⊢
      exact decide_eq_true (le_of_lt (not_le.mp (of_decide_eq_false h)))

/-- C8: within every group of the report, the subject store's row is first
whenever the subject store has observations in that group, and any two
non-subject rows appear in non-decreasing order of distance. -/
theorem row_ordering (input : VizInput) (records : List RateRecord)
    (g : GroupedData) (hg : g ∈ groupedData input records) :
    ((∃ row ∈ g.stores, row.isSubject = true) →
      ∃ row, g.stores.head? = some row ∧ row.isSubject = true) ∧
    g.stores.Pairwise (fun a b =>
      a.isSubject = false → b.isSubject = false → a.distance ≤ b.distance) := by
  rcases mem_groupedData hg with ⟨e, _, rfl⟩
  rw [mkGroup_stores]
  have hpw : (stableSort rowLe ((entriesSorted e.2).map
      (fun x => mkStoreRow input x.1 x.2))).Pairwise (fun a b => rowLe a b = true) :=
    pairwise_stableSort rowLe (fun _ => True) _ (fun _ _ => trivial)
      (fun a b c _ _ _ => rowLe_trans a b c) (fun a b _ _ => rowLe_total a b)
  constructor
  · rintro ⟨row, hrow, hsub⟩
    cases hl : stableSort rowLe ((entriesSorted e.2).map
        (fun x => mkStoreRow input x.1 x.2)) with
    | nil =>
      rw [hl] at hrow
      simp at hrow
    | cons h t =>
      refine ⟨h, rfl, ?_⟩
      by_cases hh : h.isSubject = true
      · exact hh
      · rw [hl] at hrow hpw
        rcases List.mem_cons.mp hrow with rfl | hrt
        · exact absurd hsub hh
        · have hle := (List.pairwise_cons.mp hpw).1 row hrt
          unfold rowLe at hle
          rw [if_neg hh, if_pos hsub] at hle
          exact absurd hle (by simp)
  · refine hpw.imp ?_
    intro a b hab ha hb
    unfold rowLe at hab
    rw [if_neg (by simp [ha]), if_neg (by simp [hb])] at hab
    exact of_decide_eq_true hab

/-- Witness for C8: in the single group of `cRecs8` the head row is the
subject store's, and the row order is subject 5 first, then store 3
(distance 4), then store 2 (distance 7). -/
theorem row_ordering_witness :
    (∃ row, (groupedData cIn8 cRecs8).head!.stores.head? = some row ∧
      row.isSubject = true) ∧
    (groupedData cIn8 cRecs8).head!.stores.map (fun r => r.storeId) = [5, 3, 2] :=
  ⟨(row_ordering cIn8 cRecs8 (groupedData cIn8 cRecs8).head!
      (by with_unfolding_all decide)).1 (by with_unfolding_all decide),
   by with_unfolding_all decide⟩

theorem charListLe_trans (x y z : List Char) (hxy : charListLe x y = true)
    (hyz : charListLe y z = true) : charListLe x z = true := by
  induction x generalizing y z with
  | nil => rfl
  | cons a as ih =>
    cases y with
    | nil => simp [charListLe] at hxy
    | cons b bs =>
      cases z with
      | nil => simp [charListLe] at hyz
      | cons c cs =>
        unfold charListLe at hxy hyz ⊢
        rcases lt_trichotomy a b with hab | rfl | hab
        · rcases lt_trichotomy b c with hbc | rfl | hbc
          · rw [if_pos (lt_trans hab hbc)]
          · rw [if_pos hab]
          · rw [if_neg (asymm hbc), if_pos hbc] at hyz
            exact absurd hyz (by simp)
        · rw [if_neg (lt_irrefl a), if_neg (lt_irrefl a)] at hxy
          rcases lt_trichotomy a c with hac | rfl | hac
          · rw [if_pos hac]
          · rw [if_neg (lt_irrefl a), if_neg (lt_irrefl a)] at hyz ⊢
            exact ih bs cs hxy hyz
          · rw [if_neg (asymm hac), if_pos hac] at hyz
            exact absurd hyz (by simp)
        · rw [if_neg (asymm hab), if_pos hab] at hxy
          exact absurd hxy (by simp)

theorem charListLe_total (x y : List Char) (h : charListLe x y = false) :
    charListLe y x = true := by
  induction x generalizing y with
  | nil => simp [charListLe] at h
  | cons a as ih =>
    cases y with
    | nil => rfl
    | cons b bs =>
      unfold charListLe at h ⊢
      rcases lt_trichotomy a b with hab | rfl | hab
      · rw [if_pos hab] at h
        exact absurd h (by simp)
      · rw [if_neg (lt_irrefl a), if_neg (lt_irrefl a)] at h ⊢
        exact ih bs h
      · rw [if_pos hab]

theorem groupLe_trans (a b c : GroupedData) (ha : sizeParses a) (hb : sizeParses b)
    (hc : sizeParses c) (hab : groupLe a b = true) (hbc : groupLe b c = true) :
    groupLe a c = true := by
  rcases Option.isSome_iff_exists.mp ha with ⟨x, hx⟩
  rcases Option.isSome_iff_exists.mp hb with ⟨y, hy⟩
  rcases Option.isSome_iff_exists.mp hc with ⟨z, hz⟩
  unfold groupLe at hab hbc ⊢
  rw [hx, hy] at hab
  rw [hy, hz] at hbc
  rw [hx, hz]
  dsimp only at hab hbc ⊢
  by_cases hxy : x = y
  · subst hxy
    by_cases hyz : x = z
    · subst hyz
      rw [if_pos rfl] at hab hbc ⊢
      exact charListLe_trans _ _ _ hab hbc
    · rw [if_neg hyz] at hbc ⊢
      exact hbc
  · rw [if_neg hxy] at hab
    by_cases hyz : y = z
    · subst hyz
      rw [if_neg hxy]
      exact hab
    · rw [if_neg hyz] at hbc
      have h1 : x < y := lt_of_le_of_ne (of_decide_eq_true hab) hxy
      have h2 : y < z := lt_of_le_of_ne (of_decide_eq_true hbc) hyz
      rw [if_neg (ne_of_lt (lt_trans h1 h2))]
      exact decide_eq_true (le_of_lt (lt_trans h1 h2))

theorem groupLe_total (a b : GroupedData) (ha : sizeParses a) (hb : sizeParses b)
    (h : groupLe a b = false) : groupLe b a = true := by
  rcases Option.isSome_iff_exists.mp ha with ⟨x, hx⟩
  rcases Option.isSome_iff_exists.mp hb with ⟨y, hy⟩
  unfold groupLe at h ⊢
  rw [hx, hy] at h
  rw [hy, hx]
  dsimp only at h ⊢
  by_cases hxy : x = y
  · subst hxy
    rw [if_pos rfl] at h ⊢
    exact charListLe_total _ _ h
  · rw [if_neg hxy] at h
    have hyx : y < x := not_le.mp (of_decide_eq_false h)
    rw [if_neg (ne_of_lt hyx)]
    exact decide_eq_true (le_of_lt hyx)

/-- C3 (amended): when every group's raw size label parses to a number
(the comparator is then consistent), the report's groups are ordered by
strictly ascending parsed area, with ties broken by ascending (code-point
lexicographic) feature code.  Sizes parse as in the claim, except that a
multi-token size whose first two tokens are not both numeric yields `NaN`
(modelled `none`) rather than `0`. -/
theorem group_ordering (input : VizInput) (records : List RateRecord)
    (h : ∀ g ∈ groupedData input records, (parseSize g.size).isSome = true) :
    (groupedData input records).Pairwise (fun a b =>
      (parseSize a.size).getD 0 < (parseSize b.size).getD 0 ∨
      ((parseSize a.size).getD 0 = (parseSize b.size).getD 0 ∧
        strLe a.featureCode b.featureCode = true)) := by
  by_cases hlen : records.length = 0
  · simp [groupedData, hlen]
  · have hall : ∀ g ∈ groupedData input records, sizeParses g := h
    rw [groupedData, if_neg hlen] at hall ⊢
    have hpw := pairwise_stableSort groupLe sizeParses
      ((buildGroups input (input.selectedSizes.map normalizeSize) records).map
        (fun g => mkGroup input ((records.length : ℚ)) g.1 g.2))
      (fun x hx => hall x ((mem_stableSort _ _ x).mpr hx))
      groupLe_trans groupLe_total
    refine List.Pairwise.imp_of_mem ?_ hpw
    intro a b hamem hbmem hab
    have ha := hall a hamem
    have hb := hall b hbmem
    rcases Option.isSome_iff_exists.mp ha with ⟨x, hx⟩
    rcases Option.isSome_iff_exists.mp hb with ⟨y, hy⟩
    unfold groupLe at hab
    rw [hx, hy] at hab
    rw [hx, hy]
    dsimp only at hab ⊢
    by_cases hxy : x = y
    · subst hxy
      rw [if_pos rfl] at hab
      exact Or.inr ⟨rfl, hab⟩
    · rw [if_neg hxy] at hab
      exact Or.inl (lt_of_le_of_ne (of_decide_eq_true hab) hxy)

/-- Counterexample to C3 as stated: the claim's parenthetical says an
unparseable size "yields 0 and sorts first", but for the multi-token size
"axb" the code computes `parseFloat("a") * parseFloat("b") = NaN`
(modelled `none`), not `0`. -/
theorem group_ordering_counterexample :
    parseSize ("axb") = none ∧ (none : Option ℚ) ≠ some 0 := by
  constructor
  · with_unfolding_all decide
  · simp

/-- Witness for C3: the three groups sort to
`5x5|DU, 5x5|ENCC, 10x10|DU` — "5x5" (area 25) before "10x10" (area 100)
when codes tie is irrelevant, and "DU" before "ENCC" when sizes tie. -/
theorem group_ordering_witness :
    (groupedData cIn3 cRecs3).Pairwise (fun a b =>
      (parseSize a.size).getD 0 < (parseSize b.size).getD 0 ∨
      ((parseSize a.size).getD 0 = (parseSize b.size).getD 0 ∧
        strLe a.featureCode b.featureCode = true)) ∧
    (groupedData cIn3 cRecs3).map (fun g => (g.size, g.featureCode)) =
      [("5x5", "DU"), ("5x5", "ENCC"), ("10x10", "DU")] :=
  ⟨group_ordering cIn3 cRecs3 (by with_unfolding_all decide),
   by with_unfolding_all decide⟩

theorem pushStoreRecord_groupSize (sg : List (Int × List RateRecord)) (sid : Int)
    (r : RateRecord) : groupSize (pushStoreRecord sg sid r) = groupSize sg + 1 := by
  induction sg with
  | nil => rfl
  | cons e t ih =>
    rcases e with ⟨k, rs⟩
    unfold pushStoreRecord
    by_cases hk : k = sid
    · rw [if_pos hk]
      simp [groupSize]
      omega
    · rw [if_neg hk]
      simp [groupSize] at ih ⊢
      omega

theorem pushGroupRecord_totalSize (gs : List (String × List (Int × List RateRecord)))
    (key : String) (sid : Int) (r : RateRecord) :
    totalSize (pushGroupRecord gs key sid r) = totalSize gs + 1 := by
  induction gs with
  | nil => rfl
  | cons e t ih =>
    rcases e with ⟨k, sg⟩
    unfold pushGroupRecord
    by_cases hk : k = key
    · rw [if_pos hk]
      simp only [totalSize, List.map_cons, List.sum_cons] at ih ⊢
      rw [pushStoreRecord_groupSize]
      omega
    · rw [if_neg hk]
      simp only [totalSize, List.map_cons, List.sum_cons] at ih ⊢
      omega

theorem foldl_groupStep_totalSize (input : VizInput) (allowed : List String)
    (records : List RateRecord) :
    ∀ gs, totalSize (records.foldl (groupStep input allowed) gs) =
      totalSize gs +
        (records.filter (fun r => allowed.contains (normalizeSize r.size))).length := by
  induction records with
  | nil =>
    intro gs
    simp
  | cons r t ih =>
    intro gs
    rw [List.foldl_cons, List.filter_cons, ih]
    by_cases hr : allowed.contains (normalizeSize r.size) = true
    · rw [if_pos hr]
      unfold groupStep
      rw [if_pos hr, pushGroupRecord_totalSize]
      simp
      omega
    · rw [if_neg hr]
      unfold groupStep
      rw [if_neg hr]

theorem buildGroups_totalSize (input : VizInput) (allowed : List String)
    (records : List RateRecord) :
    totalSize (buildGroups input allowed records) =
      (records.filter (fun r => allowed.contains (normalizeSize r.size))).length := by
  unfold buildGroups
  simpa [totalSize] using foldl_groupStep_totalSize input allowed records []

theorem sum_map_natCastQ (l : List α) (f : α → ℕ) :
    (l.map (fun a => ((f a : ℕ) : ℚ))).sum = (((l.map f).sum : ℕ) : ℚ) := by
  rw [Nat.cast_list_sum, List.map_map]
  rfl

theorem mkGroup_recordCount_sum (input : VizInput) (T : ℚ) (key : String)
    (sg : List (Int × List RateRecord)) :
    ((mkGroup input T key sg).stores.map (fun r => (r.recordCount : ℚ))).sum =
      ((groupSize sg : ℕ) : ℚ) := by
  rw [mkGroup_stores]
  rw [((stableSort_perm rowLe ((entriesSorted sg).map
    (fun e => mkStoreRow input e.1 e.2))).map (fun r => (r.recordCount : ℚ))).sum_eq]
  rw [List.map_map]
  have h1 : ((entriesSorted sg).map
      ((fun r => (r.recordCount : ℚ)) ∘ (fun e => mkStoreRow input e.1 e.2))) =
      (entriesSorted sg).map (fun e => ((e.2.length : ℕ) : ℚ)) := rfl
  rw [h1, sum_map_natCastQ]
  congr 1
  exact ((stableSort_perm (fun a b => decide (a.1 ≤ b.1)) sg).map
    (fun e => e.2.length)).sum_eq

theorem mkGroup_marketShare (input : VizInput) (T : ℚ) (key : String)
    (sg : List (Int × List RateRecord)) :
    (mkGroup input T key sg).marketShare = (((groupSize sg : ℕ) : ℚ) / T) * 100 := by
  show ((((entriesSorted sg).map (fun e => e.2)).flatten.length : ℚ) / T) * 100 = _
  congr 3
  rw [List.length_flatten, List.map_map]
  have h1 : ((entriesSorted sg).map (List.length ∘ (fun e => e.2))) =
      (entriesSorted sg).map (fun e => e.2.length) := rfl
  rw [h1]
  exact ((stableSort_perm (fun a b => decide (a.1 ≤ b.1)) sg).map
    (fun e => e.2.length)).sum_eq

theorem sum_map_div_mul (l : List ℚ) (T : ℚ) :
    (l.map (fun c => c / T * 100)).sum = (l.sum / T) * 100 := by
  induction l with
  | nil => simp
  | cons a t ih =>
    simp only [List.map_cons, List.sum_cons, ih]
    ring

/-- C6: each group's market share is its observation count over the TOTAL
number of observations passed in (filtered-out observations included),
times 100; the shares of one report sum to (sum of per-group counts) /
(total input count) × 100; and they sum to strictly less than 100 whenever
some input observation was excluded by the selected-size filter. -/
theorem marketShare_spec (input : VizInput) (records : List RateRecord) :
    (∀ g ∈ groupedData input records,
      g.marketShare =
        ((g.stores.map (fun r => (r.recordCount : ℚ))).sum / (records.length : ℚ)) * 100) ∧
    ((groupedData input records).map (fun g => g.marketShare)).sum =
      (((groupedData input records).map
        (fun g => (g.stores.map (fun r => (r.recordCount : ℚ))).sum)).sum /
        (records.length : ℚ)) * 100 ∧
    ((∃ r ∈ records,
        ¬ (input.selectedSizes.map normalizeSize).contains (normalizeSize r.size) = true) →
      ((groupedData input records).map (fun g => g.marketShare)).sum < 100) := by
  have hpart : ∀ g ∈ groupedData input records,
      g.marketShare =
        ((g.stores.map (fun r => (r.recordCount : ℚ))).sum / (records.length : ℚ)) * 100 := by
    intro g hg
    rcases mem_groupedData hg with ⟨e, _, rfl⟩
    rw [mkGroup_marketShare, mkGroup_recordCount_sum]
  have hcomp : ((groupedData input records).map
      (fun g => (g.stores.map (fun r => (r.recordCount : ℚ))).sum / (records.length : ℚ) * 100)) =
      (((groupedData input records).map
        (fun g => (g.stores.map (fun r => (r.recordCount : ℚ))).sum)).map
        (fun c => c / (records.length : ℚ) * 100)) := by
    rw [List.map_map]
    rfl
  have hsum : ((groupedData input records).map (fun g => g.marketShare)).sum =
      (((groupedData input records).map
        (fun g => (g.stores.map (fun r => (r.recordCount : ℚ))).sum)).sum /
        (records.length : ℚ)) * 100 := by
    rw [List.map_congr_left hpart, hcomp, sum_map_div_mul]
  refine ⟨hpart, hsum, ?_⟩
  rintro ⟨r, hr, hrfail⟩
  rw [hsum]
  have hlen : records.length ≠ 0 := by
    intro h0
    rw [List.length_eq_zero] at h0
    subst h0
    simp at hr
  have hC : (((groupedData input records).map
      (fun g => (g.stores.map (fun r => (r.recordCount : ℚ))).sum)).sum) =
      (((records.filter (fun r =>
        (input.selectedSizes.map normalizeSize).contains (normalizeSize r.size))).length : ℕ) : ℚ) := by
    rw [groupedData, if_neg hlen]
    rw [((stableSort_perm groupLe
      ((buildGroups input (input.selectedSizes.map normalizeSize) records).map
        (fun g => mkGroup input ((records.length : ℚ)) g.1 g.2))).map
      (fun g => (g.stores.map (fun r => (r.recordCount : ℚ))).sum)).sum_eq]
    rw [List.map_map]
    have h1 : ((buildGroups input (input.selectedSizes.map normalizeSize) records).map
        ((fun g => (g.stores.map (fun r => (r.recordCount : ℚ))).sum) ∘
          (fun g => mkGroup input ((records.length : ℚ)) g.1 g.2))) =
        (buildGroups input (input.selectedSizes.map normalizeSize) records).map
          (fun g => ((groupSize g.2 : ℕ) : ℚ)) := by
      refine List.map_congr_left ?_
      intro a _
      exact mkGroup_recordCount_sum input ((records.length : ℚ)) a.1 a.2
    rw [h1, sum_map_natCastQ]
    congr 2
    exact buildGroups_totalSize input (input.selectedSizes.map normalizeSize) records
  rw [hC]
  have hlt : ((records.filter (fun r =>
      (input.selectedSizes.map normalizeSize).contains (normalizeSize r.size))).length : ℕ) <
      records.length :=
    List.length_filter_lt_length_iff_exists.mpr ⟨r, hr, hrfail⟩
  have hpos : (0 : ℚ) < (records.length : ℚ) := by
    exact_mod_cast Nat.pos_of_ne_zero hlen
  have hratio : (((records.filter (fun r =>
      (input.selectedSizes.map normalizeSize).contains (normalizeSize r.size))).length : ℕ) : ℚ) /
      (records.length : ℚ) < 1 := by
    rw [div_lt_one hpos]
    exact_mod_cast hlt
  nlinarith [hratio]

/-- Witness for C6: with 2 of 3 observations kept, the single group's
market share is 2/3 × 100 and the shares sum to strictly less than 100. -/
theorem marketShare_spec_witness :
    (groupedData cIn6 cRecs6).head!.marketShare =
      (((groupedData cIn6 cRecs6).head!.stores.map
        (fun r => (r.recordCount : ℚ))).sum / ((cRecs6.length : ℕ) : ℚ)) * 100 ∧
    ((groupedData cIn6 cRecs6).map (fun g => g.marketShare)).sum < 100 ∧
    (groupedData cIn6 cRecs6).map (fun g => g.marketShare) = [200 / 3] :=
  ⟨(marketShare_spec cIn6 cRecs6).1 (groupedData cIn6 cRecs6).head!
      (by with_unfolding_all decide),
   (marketShare_spec cIn6 cRecs6).2.2 (by with_unfolding_all decide),
   by with_unfolding_all decide⟩

